import Mathlib

/-!
Shallow embedding of the confidence-aware trading engine trust layer
(src/src/lib.rs, the hardened variant of the Anchor program `workspace`).

Bytes are modelled as `List Nat` (each element a `u8` value), pubkeys as
their 32-byte contents, machine integers as `Nat`/`Int` with explicit
`2 ^ 64` bounds where overflow matters, and fallible operations as
`Except`.  Account mutation is modelled by explicit state passing; the
runtime rollback of all account writes when an instruction returns an
error is modelled by `committedState`.
-/

set_option maxRecDepth 16384

namespace Workspace

/-- The `ErrorCode` enum of src/src/lib.rs. -/
inductive ErrorCode where
  | AssetIdTooLong
  | AssetIdEmpty
  | InvalidRiskScore
  | InvalidConfidenceRatio
  | InvalidTimestamp
  | NotInitialized
  | Unauthorized
  | InvalidSigner
  | InvalidSignature
  | MissingEd25519Instruction
  | InvalidEd25519Program
  | InvalidEd25519Data
  | SignatureOffsetOverflow
  | PubkeyOffsetOverflow
  | MessageOffsetOverflow
  | InvalidMessageSize
  | SignatureVerificationFailed
  | DecisionAlreadyUsed
  | DecisionHistoryFull
  | DecisionExpired
deriving DecidableEq, Repr

/-- A program error: either one of the declared `ErrorCode`s, or an error
propagated from an external facility (sysvar instruction loading). -/
inductive PErr where
  | code : ErrorCode → PErr
  | external : PErr
deriving DecidableEq, Repr

/-- A sequence of `u8` values. -/
abbrev Bytes := List Nat

/-- `ED25519_SIG_LEN` from the source. -/
def ED25519_SIG_LEN : Nat := 64

/-- `ED25519_PUBKEY_LEN` from the source. -/
def ED25519_PUBKEY_LEN : Nat := 32

/-- `ED25519_INSTRUCTION_LEN` from the source (num_signatures + padding). -/
def ED25519_INSTRUCTION_LEN : Nat := 2

/-- `SIGNATURE_OFFSETS_LEN` from the source (7 u16 fields = 14 bytes). -/
def SIGNATURE_OFFSETS_LEN : Nat := 14

/-- An instruction of the atomic transaction, as observed through the
instructions sysvar: its program id (an opaque key, only compared for
equality) and its raw data bytes. -/
structure SolInstruction where
  program_id : Nat
  data : Bytes
deriving DecidableEq, Repr

/-- The distinguished id of the external ed25519 verifier program
(`ed25519_program::ID`); only equality with it is ever tested. -/
def ed25519ProgramId : Nat := 1

/-- The `Ed25519SignatureOffsets` struct; each field is a `u16`. -/
structure Ed25519SignatureOffsets where
  signature_offset : Nat
  signature_instruction_index : Nat
  public_key_offset : Nat
  public_key_instruction_index : Nat
  message_data_offset : Nat
  message_data_size : Nat
  message_instruction_index : Nat
deriving DecidableEq, Repr

/-- `u16::from_le_bytes([b0, b1])`. -/
def u16le (b0 b1 : Nat) : Nat := b0 + 256 * b1

/-- `Ed25519SignatureOffsets::from_bytes` (src lines 178-192). -/
def Ed25519SignatureOffsets.from_bytes (bytes : Bytes) :
    Except PErr Ed25519SignatureOffsets :=
  if bytes.length < SIGNATURE_OFFSETS_LEN then
    .error (.code .InvalidEd25519Data)
  else
    .ok { signature_offset := u16le (bytes.getD 0 0) (bytes.getD 1 0)
          signature_instruction_index := u16le (bytes.getD 2 0) (bytes.getD 3 0)
          public_key_offset := u16le (bytes.getD 4 0) (bytes.getD 5 0)
          public_key_instruction_index := u16le (bytes.getD 6 0) (bytes.getD 7 0)
          message_data_offset := u16le (bytes.getD 8 0) (bytes.getD 9 0)
          message_data_size := u16le (bytes.getD 10 0) (bytes.getD 11 0)
          message_instruction_index := u16le (bytes.getD 12 0) (bytes.getD 13 0) }

/-- `secure_compare` (src lines 257-266): length check, then an
XOR-accumulate over all byte pairs. -/
def secure_compare (a b : Bytes) : Bool :=
  if a.length ≠ b.length then
    false
  else
    ((a.zip b).foldl (fun r p => r ||| (p.1 ^^^ p.2)) 0) == 0

/-- The slice `&data[s..e]` (well-defined when `s ≤ e ≤ data.length`;
the Lean version is total, the bounds are established separately). -/
def slice (data : Bytes) (s e : Nat) : Bytes := (data.drop s).take (e - s)

/-- `usize::checked_add` on the 64-bit target. -/
def checked_add_usize (a b : Nat) : Option Nat :=
  if a + b < 2 ^ 64 then some (a + b) else none

/-- `u64::checked_add`. -/
def checked_add_u64 (a b : Nat) : Option Nat :=
  if a + b < 2 ^ 64 then some (a + b) else none

/-- The offsets-struct byte slice of signature slot `i`:
`&data[offset_start..offset_start + SIGNATURE_OFFSETS_LEN]` with
`offset_start = ED25519_INSTRUCTION_LEN + SIGNATURE_OFFSETS_LEN * i`. -/
def offSlice (data : Bytes) (i : Nat) : Bytes :=
  slice data (ED25519_INSTRUCTION_LEN + SIGNATURE_OFFSETS_LEN * i)
    (ED25519_INSTRUCTION_LEN + SIGNATURE_OFFSETS_LEN * i + SIGNATURE_OFFSETS_LEN)

/-- The body of one iteration of the per-signature loop of
`verify_ed25519_instruction` (src lines 222-250): parse the offsets of
slot `i`, bounds-check the three ranges with overflow-checked addition,
check the declared message size, and return the outcome of the three
constant-time comparisons. -/
def slotCheck (data pk msg sig : Bytes) (i : Nat) : Except PErr Bool :=
  match Ed25519SignatureOffsets.from_bytes (offSlice data i) with
  | .error e => .error e
  | .ok offsets =>
    match checked_add_usize offsets.signature_offset ED25519_SIG_LEN with
    | none => .error (.code .SignatureOffsetOverflow)
    | some sig_end =>
      if sig_end ≤ data.length then
        match checked_add_usize offsets.public_key_offset ED25519_PUBKEY_LEN with
        | none => .error (.code .PubkeyOffsetOverflow)
        | some pubkey_end =>
          if pubkey_end ≤ data.length then
            if offsets.message_data_size = 32 then
              match checked_add_usize offsets.message_data_offset
                  offsets.message_data_size with
              | none => .error (.code .MessageOffsetOverflow)
              | some msg_end =>
                if msg_end ≤ data.length then
                  .ok (secure_compare (slice data offsets.public_key_offset pubkey_end) pk
                    && secure_compare (slice data offsets.signature_offset sig_end) sig
                    && secure_compare (slice data offsets.message_data_offset msg_end) msg)
                else .error (.code .MessageOffsetOverflow)
            else .error (.code .InvalidMessageSize)
          else .error (.code .PubkeyOffsetOverflow)
      else .error (.code .SignatureOffsetOverflow)

/-- The per-signature loop `for i in 0..num_signatures` of
`verify_ed25519_instruction`: slot errors propagate (early `return Err`),
the first matching slot returns `Ok(())`, and exhausting all slots yields
`SignatureVerificationFailed`.  `checkSlots data pk msg sig i k` processes
slots `i, i+1, ..., i+k-1`. -/
def checkSlots (data pk msg sig : Bytes) : Nat → Nat → Except PErr Unit
  | _, 0 => .error (.code .SignatureVerificationFailed)
  | i, k + 1 => do
    let m ← slotCheck data pk msg sig i
    if m then .ok () else checkSlots data pk msg sig (i + 1) k

/-- The data-processing part of `verify_ed25519_instruction`
(src lines 210-253): header validation then the per-signature loop. -/
def processEdData (data pk msg sig : Bytes) : Except PErr Unit :=
  if data.length < ED25519_INSTRUCTION_LEN then
    .error (.code .InvalidEd25519Data)
  else
    let num_signatures := data.getD 0 0
    let padding := data.getD 1 0
    if num_signatures < 1 then .error (.code .InvalidEd25519Data)
    else if padding ≠ 0 then .error (.code .InvalidEd25519Data)
    else if data.length < ED25519_INSTRUCTION_LEN + SIGNATURE_OFFSETS_LEN * num_signatures then
      .error (.code .InvalidEd25519Data)
    else
      checkSlots data pk msg sig 0 num_signatures

/-- `verify_ed25519_instruction` (src lines 195-254).  The instructions
sysvar is modelled as the ordered list of same-transaction instructions
plus the index of the current one; a failing
`load_instruction_at_checked` surfaces as `PErr.external`. -/
def verify_ed25519_instruction (instrs : List SolInstruction) (current_index : Nat)
    (expected_pubkey expected_message sig_expected : Bytes) : Except PErr Unit :=
  if current_index = 0 then
    .error (.code .MissingEd25519Instruction)
  else
    match instrs.get? (current_index - 1) with
    | none => .error .external
    | some ed25519_ix =>
      if ed25519_ix.program_id ≠ ed25519ProgramId then
        .error (.code .InvalidEd25519Program)
      else
        processEdData ed25519_ix.data expected_pubkey expected_message sig_expected

/-- The `Config` account (src lines 272-283).  `authority` and
`trusted_signer` are pubkeys modelled by their 32-byte contents;
`nonce` is a `u64` (kept below `2 ^ 64`). -/
structure Config where
  bump : Nat
  authority : Bytes
  is_initialized : Bool
  trusted_signer : Bytes
  nonce : Nat
deriving DecidableEq, Repr

/-- The `AssetRiskStatus` account (src lines 285-303). -/
structure AssetRiskStatus where
  bump : Nat
  asset_id : Bytes
  risk_score : Nat
  is_blocked : Bool
  last_updated : Int
  timestamp : Int
  confidence_ratio : Nat
  publisher_count : Nat
  decision_hash : Bytes
  signature : Bytes
  signer_pubkey : Bytes
deriving DecidableEq, Repr

/-- A `DecisionRecord` of the replay ledger (src lines 312-316). -/
structure DecisionRecord where
  hash : Bytes
  timestamp : Int
deriving DecidableEq, Repr

/-- The `UsedDecisions` account (src lines 305-310): the replay ledger. -/
structure UsedDecisions where
  bump : Nat
  decisions : List DecisionRecord
  max_size : Nat
deriving DecidableEq, Repr

/-- `UsedDecisions::is_used` (src lines 321-323): a linear scan for the
hash, with no reference to any time window. -/
def UsedDecisions.is_used (self : UsedDecisions) (hash : Bytes) : Bool :=
  self.decisions.any (fun d => d.hash == hash)

/-- `UsedDecisions::mark_used` (src lines 325-337).  The returned pair is
(instruction result, in-memory state of the account after the call); the
purge by `retain` happens before the capacity check, so the purged state
is returned even when the capacity check fails.  The capacity check casts
the length to `u16` (`% 2 ^ 16`) before comparing, as the source does. -/
def UsedDecisions.mark_used (self : UsedDecisions) (hash : Bytes) (timestamp : Int) :
    Except PErr Unit × UsedDecisions :=
  let current_time := timestamp
  let purged := self.decisions.filter (fun d => current_time - d.timestamp < 3600)
  if purged.length % 2 ^ 16 < self.max_size then
    (.ok (), { self with decisions := purged ++ [⟨hash, timestamp⟩] })
  else
    (.error (.code .DecisionHistoryFull), { self with decisions := purged })

/-- The replay ledger as created by the bootstrap instruction
(src lines 26-29): empty, capacity 1000. -/
def usedDecsDefault : UsedDecisions :=
  { bump := 0, decisions := [], max_size := 1000 }

/-- The persistent state touched by the program: the singleton `Config`
and `UsedDecisions` accounts and the per-asset registry of
`AssetRiskStatus` accounts, addressed by the asset-id seed bytes. -/
structure ProgState where
  config : Config
  used_decisions : UsedDecisions
  registry : Bytes → Option AssetRiskStatus

/-- The per-call environment: the clock value, the instructions sysvar
content, the signing authority account key, and the PDA bump chosen by
the runtime for the asset risk account. -/
structure TxEnv where
  now : Int
  instrs : List SolInstruction
  current_index : Nat
  caller : Bytes
  risk_bump : Nat

/-- The explicit arguments of `update_risk_status` (src lines 51-62);
`asset_id` is the UTF-8 byte content of the `String` argument. -/
structure RiskArgs where
  asset_id : Bytes
  risk_score : Nat
  is_blocked : Bool
  confidence_ratio : Nat
  publisher_count : Nat
  timestamp : Int
  decision_hash : Bytes
  signature : Bytes
  signer_pubkey : Bytes

/-- The 16-byte zero-padded copy of the asset id bytes built by
src lines 104-106. -/
def padTo16 (b : Bytes) : Bytes := b.take 16 ++ List.replicate (16 - b.length) 0

/-- `update_trusted_signer` (src lines 36-49) together with the Anchor
account constraints of `UpdateTrustedSigner` (src lines 370-383): the
initialization and authority constraints run before the handler body,
which re-checks the authority and then replaces the signer and advances
the nonce with `checked_add(1).unwrap_or(0)`. -/
def update_trusted_signer (config : Config) (caller new_signer : Bytes) :
    Except PErr Config :=
  if ¬ config.is_initialized then .error (.code .NotInitialized)
  else if config.authority ≠ caller then .error (.code .Unauthorized)
  else
    .ok { config with
          trusted_signer := new_signer
          nonce := (checked_add_u64 config.nonce 1).getD 0 }

/-- Steps 4-7 of the publish protocol (src lines 84-121): the replay
freshness check, the ed25519 cross-check, the ledger consume, and the
registry write. -/
def publishCore (env : TxEnv) (args : RiskArgs) (s : ProgState) :
    Except PErr Unit × ProgState :=
  if s.used_decisions.is_used args.decision_hash then
    (.error (.code .DecisionAlreadyUsed), s)
  else
    match verify_ed25519_instruction env.instrs env.current_index
        args.signer_pubkey args.decision_hash args.signature with
    | .error e => (.error e, s)
    | .ok () =>
      match s.used_decisions.mark_used args.decision_hash args.timestamp with
      | (.error e, ud) => (.error e, { s with used_decisions := ud })
      | (.ok (), ud) =>
        let newRecord : AssetRiskStatus :=
          { bump := env.risk_bump
            asset_id := padTo16 args.asset_id
            risk_score := args.risk_score
            is_blocked := args.is_blocked
            last_updated := env.now
            timestamp := args.timestamp
            confidence_ratio := args.confidence_ratio
            publisher_count := args.publisher_count
            decision_hash := args.decision_hash
            signature := args.signature
            signer_pubkey := args.signer_pubkey }
        (.ok (), { s with
                   used_decisions := ud
                   registry := fun a =>
                     if a = args.asset_id then some newRecord else s.registry a })

/-- `update_risk_status` (src lines 51-122) with the Anchor account
constraints of `UpdateRiskStatus` (src lines 385-419), at the raw memory
level: the returned pair is (instruction result, in-memory state after
the call).  A failing step returns early; the only mutation that can
precede a failure is the purge inside `mark_used`. -/
def update_risk_status_raw (env : TxEnv) (args : RiskArgs) (s : ProgState) :
    Except PErr Unit × ProgState :=
  if ¬ s.config.is_initialized then (.error (.code .NotInitialized), s)
  else if s.config.authority ≠ env.caller then (.error (.code .Unauthorized), s)
  else if ¬ (args.asset_id.length ≤ 16) then (.error (.code .AssetIdTooLong), s)
  else if args.asset_id.length = 0 then (.error (.code .AssetIdEmpty), s)
  else if ¬ (args.risk_score ≤ 100) then (.error (.code .InvalidRiskScore), s)
  else if ¬ (args.confidence_ratio ≤ 10000) then (.error (.code .InvalidConfidenceRatio), s)
  else if ¬ (env.now - 300 ≤ args.timestamp ∧ args.timestamp ≤ env.now + 60) then
    (.error (.code .InvalidTimestamp), s)
  else if args.signer_pubkey ≠ s.config.trusted_signer then (.error (.code .InvalidSigner), s)
  else publishCore env args s

/-- The transactional view of `update_risk_status`: the runtime commits
the in-memory account writes only when the instruction returns `Ok`,
otherwise every account keeps its pre-call contents. -/
def update_risk_status (env : TxEnv) (args : RiskArgs) (s : ProgState) :
    Except PErr ProgState :=
  match update_risk_status_raw env args s with
  | (.ok (), s2) => .ok s2
  | (.error e, _) => .error e

/-- The state visible after an `update_risk_status` attempt: the new
state on success, the untouched pre-call state on failure (runtime
rollback of all account mutations). -/
def committedState (env : TxEnv) (args : RiskArgs) (s : ProgState) : ProgState :=
  match update_risk_status_raw env args s with
  | (.ok (), s2) => s2
  | (.error _, _) => s

/-- `verify_decision` (src lines 124-155) with the Anchor constraint of
`VerifyDecision` (src lines 421-432); the context declares no mutable
account, so the handler is a pure check. -/
def verify_decision (config : Config) (instrs : List SolInstruction)
    (current_index : Nat) (now timestamp : Int)
    (decision_hash signature signer_pubkey : Bytes) : Except PErr Unit :=
  if ¬ config.is_initialized then .error (.code .NotInitialized)
  else if signer_pubkey ≠ config.trusted_signer then .error (.code .InvalidSigner)
  else
    match verify_ed25519_instruction instrs current_index
        signer_pubkey decision_hash signature with
    | .error e => .error e
    | .ok () =>
      if now - 300 ≤ timestamp then .ok ()
      else .error (.code .DecisionExpired)

/-! ### Helper lemmas -/

lemma nat_or_eq_zero {a b : Nat} : a ||| b = 0 ↔ a = 0 ∧ b = 0 := by
  constructor
  · intro h
    have ha : a = 0 := by
      apply Nat.eq_of_testBit_eq
      intro i
      have hb := congrArg (fun x => x.testBit i) h
      simp [Nat.testBit_or] at hb
      simp [hb.1]
    have hb : b = 0 := by
      apply Nat.eq_of_testBit_eq
      intro i
      have hbt := congrArg (fun x => x.testBit i) h
      simp [Nat.testBit_or] at hbt
      simp [hbt.2]
    exact ⟨ha, hb⟩
  · rintro ⟨rfl, rfl⟩
    rfl

lemma foldl_or_xor_eq_zero (l : List (Nat × Nat)) (acc : Nat) :
    (l.foldl (fun r p => r ||| (p.1 ^^^ p.2)) acc = 0) ↔
      (acc = 0 ∧ ∀ p ∈ l, p.1 = p.2) := by
  induction l generalizing acc with
  | nil => simp
  | cons hd tl ih =>
    simp only [List.foldl_cons, List.mem_cons]
    rw [ih]
    rw [nat_or_eq_zero]
    constructor
    · rintro ⟨⟨h1, h2⟩, h3⟩
      refine ⟨h1, ?_⟩
      intro p hp
      rcases hp with rfl | hp
      · exact Nat.xor_eq_zero.mp h2
      · exact h3 p hp
    · rintro ⟨h1, h2⟩
      refine ⟨⟨h1, Nat.xor_eq_zero.mpr (h2 hd (Or.inl rfl))⟩, ?_⟩
      intro p hp
      exact h2 p (Or.inr hp)

lemma zip_pointwise_eq (a b : Bytes) (hlen : a.length = b.length) :
    (∀ p ∈ a.zip b, p.1 = p.2) ↔ a = b := by
  induction a generalizing b with
  | nil =>
    cases b with
    | nil => simp
    | cons y ys => simp at hlen
  | cons x xs ih =>
    cases b with
    | nil => simp at hlen
    | cons y ys =>
      simp only [List.zip_cons_cons, List.mem_cons, List.cons.injEq]
      simp only [List.length_cons, Nat.succ.injEq] at hlen
      constructor
      · intro h
        refine ⟨h (x, y) (Or.inl rfl), ?_⟩
        exact (ih ys hlen).mp (fun p hp => h p (Or.inr hp))
      · rintro ⟨he1, he2⟩
        intro p hp
        rcases hp with rfl | hp
        · exact he1
        · exact ((ih ys hlen).mpr he2) p hp

/-- `secure_compare` decides byte-for-byte equality: it returns true
exactly when the two byte sequences have the same length and contents. -/
lemma secure_compare_iff (a b : Bytes) : secure_compare a b = true ↔ a = b := by
  unfold secure_compare
  by_cases hlen : a.length = b.length
  · rw [if_neg (by simp [hlen])]
    rw [beq_iff_eq, foldl_or_xor_eq_zero]
    constructor
    · rintro ⟨-, h⟩
      exact (zip_pointwise_eq a b hlen).mp h
    · intro h
      exact ⟨rfl, (zip_pointwise_eq a b hlen).mpr h⟩
  · rw [if_pos (by simpa using hlen)]
    constructor
    · intro h
      exact absurd h (by simp)
    · intro h
      exact (hlen (congrArg List.length h)).elim

/-- The property named by the specification for one signature slot: the
recorded offsets give in-bounds 64-byte signature, 32-byte public-key and
32-byte message slices that are byte-for-byte equal to the caller-claimed
signature, signer identity and decision digest. -/
def slotMatchesSpec (data pk msg sig : Bytes) (i : Nat) : Bool :=
  match Ed25519SignatureOffsets.from_bytes (offSlice data i) with
  | .error _ => false
  | .ok o =>
    decide (o.signature_offset + 64 ≤ data.length) &&
    decide (o.public_key_offset + 32 ≤ data.length) &&
    (o.message_data_size == 32) &&
    decide (o.message_data_offset + 32 ≤ data.length) &&
    (slice data o.signature_offset (o.signature_offset + 64) == sig) &&
    (slice data o.public_key_offset (o.public_key_offset + 32) == pk) &&
    (slice data o.message_data_offset (o.message_data_offset + 32) == msg)

lemma checked_add_eq_some {a b v : Nat} :
    checked_add_usize a b = some v ↔ (a + b < 2 ^ 64 ∧ v = a + b) := by
  unfold checked_add_usize
  split
  · simp only [Option.some.injEq]
    constructor
    · intro h
      exact ⟨by assumption, h.symm⟩
    · intro h
      exact h.2.symm
  · simp only [reduceCtorEq, false_iff, not_and]
    intro h
    exact absurd h (by assumption)

lemma checked_add_eq_none {a b : Nat} :
    checked_add_usize a b = none ↔ ¬ (a + b < 2 ^ 64) := by
  unfold checked_add_usize
  split
  · simp only [reduceCtorEq, false_iff, not_not]
    assumption
  · simp only [true_iff]
    assumption

/-- A slot that passes all checks returns exactly the comparison outcome,
and that outcome is true precisely when the slot matches in the sense of
the specification. -/
lemma slotCheck_ok_iff_match (data pk msg sig : Bytes) (i : Nat) (b : Bool)
    (h : slotCheck data pk msg sig i = .ok b) :
    (b = true ↔ slotMatchesSpec data pk msg sig i = true) := by
  unfold slotCheck at h
  unfold slotMatchesSpec
  split at h
  · exact absurd h (by simp)
  · rename_i o hfb
    split at h
    · exact absurd h (by simp)
    · rename_i sig_end hsig
      obtain ⟨hsiglt, rfl⟩ := checked_add_eq_some.mp hsig
      split at h
      · rename_i hsle
        split at h
        · exact absurd h (by simp)
        · rename_i pubkey_end hpk
          obtain ⟨hpklt, rfl⟩ := checked_add_eq_some.mp hpk
          split at h
          · rename_i hple
            split at h
            · rename_i hms
              split at h
              · exact absurd h (by simp)
              · rename_i msg_end hme
                obtain ⟨hmelt, rfl⟩ := checked_add_eq_some.mp hme
                split at h
                · rename_i hmle
                  rw [Except.ok.injEq] at h
                  subst h
                  rw [hms] at hmle ⊢
                  simp only [ED25519_SIG_LEN, ED25519_PUBKEY_LEN] at hsle hple ⊢
                  simp only [Bool.and_eq_true, decide_eq_true_eq, beq_iff_eq,
                    secure_compare_iff, hsle, hple, hmle, hms, true_and, and_true]
                  tauto
                · exact absurd h (by simp)
            · exact absurd h (by simp)
          · exact absurd h (by simp)
      · exact absurd h (by simp)

/-- When every remaining slot passes its checks, the loop succeeds
exactly when some remaining slot matches, and returns
`SignatureVerificationFailed` when none does. -/
lemma checkSlots_characterization (data pk msg sig : Bytes) (k i : Nat)
    (hall : ∀ j, j < k → ∃ b, slotCheck data pk msg sig (i + j) = .ok b) :
    ((checkSlots data pk msg sig i k = .ok ()) ↔
      ∃ j, j < k ∧ slotCheck data pk msg sig (i + j) = .ok true) ∧
    ((∀ j, j < k → slotCheck data pk msg sig (i + j) = .ok false) →
      checkSlots data pk msg sig i k = .error (.code .SignatureVerificationFailed)) := by
  induction k generalizing i with
  | zero =>
    constructor
    · constructor
      · intro h
        exact absurd h (by simp [checkSlots])
      · rintro ⟨j, hj, -⟩
        exact absurd hj (by omega)
    · intro _
      simp [checkSlots]
  | succ k ih =>
    obtain ⟨b0, hb0⟩ := hall 0 (by omega)
    rw [Nat.add_zero] at hb0
    have hstep : checkSlots data pk msg sig i (k + 1) =
        if b0 then .ok () else checkSlots data pk msg sig (i + 1) k := by
      simp only [checkSlots, hb0]
      rfl
    have hall' : ∀ j, j < k → ∃ b, slotCheck data pk msg sig (i + 1 + j) = .ok b := by
      intro j hj
      have := hall (j + 1) (by omega)
      rwa [show i + (j + 1) = i + 1 + j by omega] at this
    obtain ⟨ih1, ih2⟩ := ih (i + 1) hall'
    constructor
    · rw [hstep]
      by_cases hb : b0 = true
      · subst hb
        simp only [if_pos rfl]
        constructor
        · intro _
          exact ⟨0, by omega, by rwa [Nat.add_zero]⟩
        · intro _
          rfl
      · rw [Bool.not_eq_true] at hb
        subst hb
        rw [if_neg (by simp)]
        rw [ih1]
        constructor
        · rintro ⟨j, hj, hm⟩
          refine ⟨j + 1, by omega, ?_⟩
          rwa [show i + (j + 1) = i + 1 + j by omega]
        · rintro ⟨j, hj, hm⟩
          cases j with
          | zero =>
            rw [Nat.add_zero] at hm
            rw [hm] at hb0
            simp at hb0
          | succ j' =>
            refine ⟨j', by omega, ?_⟩
            rwa [show i + 1 + j' = i + (j' + 1) by omega]
    · intro hnone
      rw [hstep]
      have h0 := hnone 0 (by omega)
      rw [Nat.add_zero] at h0
      rw [h0] at hb0
      rw [Except.ok.injEq] at hb0
      subst hb0
      rw [if_neg (by simp)]
      apply ih2
      intro j hj
      have := hnone (j + 1) (by omega)
      rwa [show i + (j + 1) = i + 1 + j by omega] at this

lemma processEdData_eq_checkSlots (data pk msg sig : Bytes)
    (h2 : 2 ≤ data.length) (h5 : 1 ≤ data.getD 0 0) (h6 : data.getD 1 0 = 0)
    (h7 : 2 + 14 * data.getD 0 0 ≤ data.length) :
    processEdData data pk msg sig = checkSlots data pk msg sig 0 (data.getD 0 0) := by
  have h6a : data[1]?.getD 0 = 0 := by simpa [List.getD] using h6
  unfold processEdData
  simp only [ED25519_INSTRUCTION_LEN, SIGNATURE_OFFSETS_LEN]
  rw [if_neg (by omega), if_neg (by omega), if_neg (by simp [h6a]), if_neg (by omega)]

/-! ### C1 -/

/-- C1, amended.  For a well-formed preceding ed25519 verification
payload (valid header, and every signature slot passing the offset
bounds checks and the message-size check), the hardened cross-check
engine succeeds exactly when some slot i < numSignatures has its 64-byte
signature slice, 32-byte public-key slice and 32-byte message slice
(taken at the recorded offsets) byte-for-byte equal to the claimed
signature, signer identity and decision digest; when no slot matches it
fails with SignatureVerificationFailed; and secure_compare a b is true
exactly when a and b are equal-length byte sequences with equal
contents.  (Without the per-slot bounds assumption the equivalence does
not hold: an earlier slot failing a bounds or size check aborts the scan
with its own error even when a later slot matches.) -/
theorem C1_theorem (instrs : List SolInstruction) (current_index : Nat)
    (pk msg sig : Bytes) (ix : SolInstruction)
    (hidx : 0 < current_index)
    (hload : instrs.get? (current_index - 1) = some ix)
    (hprog : ix.program_id = ed25519ProgramId)
    (hlen : 2 ≤ ix.data.length)
    (hnum : 1 ≤ ix.data.getD 0 0)
    (hpad : ix.data.getD 1 0 = 0)
    (hmin : 2 + 14 * ix.data.getD 0 0 ≤ ix.data.length)
    (hbounds : ∀ j, j < ix.data.getD 0 0 → ∃ b, slotCheck ix.data pk msg sig j = .ok b) :
    ((verify_ed25519_instruction instrs current_index pk msg sig = .ok ()) ↔
      ∃ j, j < ix.data.getD 0 0 ∧ slotMatchesSpec ix.data pk msg sig j = true) ∧
    ((∀ j, j < ix.data.getD 0 0 → slotMatchesSpec ix.data pk msg sig j = false) →
      verify_ed25519_instruction instrs current_index pk msg sig =
        .error (.code .SignatureVerificationFailed)) ∧
    (∀ a b : Bytes, secure_compare a b = true ↔ a = b) := by
  have hve : verify_ed25519_instruction instrs current_index pk msg sig =
      processEdData ix.data pk msg sig := by
    unfold verify_ed25519_instruction
    rw [if_neg (by omega), hload]
    simp [hprog]
  have hpe : processEdData ix.data pk msg sig =
      checkSlots ix.data pk msg sig 0 (ix.data.getD 0 0) :=
    processEdData_eq_checkSlots ix.data pk msg sig hlen hnum hpad hmin
  obtain ⟨hc1, hc2⟩ := checkSlots_characterization ix.data pk msg sig
    (ix.data.getD 0 0) 0 (by intro j hj; simpa using hbounds j hj)
  refine ⟨?_, ?_, secure_compare_iff⟩
  · rw [hve, hpe, hc1]
    constructor
    · rintro ⟨j, hj, hok⟩
      rw [Nat.zero_add] at hok
      exact ⟨j, hj, (slotCheck_ok_iff_match _ _ _ _ _ _ hok).mp rfl⟩
    · rintro ⟨j, hj, hspec⟩
      obtain ⟨b, hb⟩ := hbounds j hj
      have hbtrue : b = true := (slotCheck_ok_iff_match _ _ _ _ _ _ hb).mpr hspec
      subst hbtrue
      exact ⟨j, hj, by rwa [Nat.zero_add]⟩
  · intro hnone
    rw [hve, hpe]
    apply hc2
    intro j hj
    obtain ⟨b, hb⟩ := hbounds j hj
    have hiff := slotCheck_ok_iff_match _ _ _ _ _ _ hb
    cases b with
    | false => simpa using hb
    | true => exact absurd (hiff.mp rfl) (by simp [hnone j hj])

/-- The all-zero 32-byte claimed signer identity used in the concrete
instances below. -/
def pk0 : Bytes := List.replicate 32 0

/-- The all-zero 32-byte claimed decision digest. -/
def msg0 : Bytes := List.replicate 32 0

/-- The all-zero 64-byte claimed signature. -/
def sig0 : Bytes := List.replicate 64 0

/-- A two-slot ed25519 payload: slot 0 declares message size 0 (its
other offsets in bounds), slot 1 points at in-bounds all-zero signature
(30..94), public key (94..126) and message (126..158) slices. -/
def dataC1 : Bytes :=
  [2, 0,
   0, 0, 0, 0, 0, 0, 0, 0, 0, 0, 0, 0, 0, 0,
   30, 0, 0, 0, 94, 0, 0, 0, 126, 0, 32, 0, 0, 0] ++ List.replicate 128 0

/-- A transaction whose instruction 0 is the two-slot payload above,
issued against the ed25519 program, and whose instruction 1 is the
current one. -/
def instrsC1 : List SolInstruction := [⟨ed25519ProgramId, dataC1⟩, ⟨0, []⟩]

/-- C1 counterexample.  In this payload slot 1 < numSignatures = 2 has
its three slices byte-for-byte equal to the claimed values, yet the
cross-check engine does not succeed: slot 0 fails the message-size check
first, so the call returns InvalidMessageSize (not success, and not
SignatureVerificationFailed). -/
theorem C1_counterexample :
    verify_ed25519_instruction instrsC1 1 pk0 msg0 sig0 =
      .error (.code .InvalidMessageSize) ∧
    slotMatchesSpec dataC1 pk0 msg0 sig0 1 = true ∧
    (1 : Nat) < dataC1.getD 0 0 := by
  refine ⟨rfl, rfl, by decide⟩

/-- A well-formed single-slot payload whose slot 0 matches the all-zero
claimed values: signature at 16..80, public key at 80..112, message at
112..144. -/
def dataC1w : Bytes :=
  [1, 0, 16, 0, 0, 0, 80, 0, 0, 0, 112, 0, 32, 0, 0, 0] ++ List.replicate 128 0

/-- The transaction carrying the single-slot payload above. -/
def instrsC1w : List SolInstruction := [⟨ed25519ProgramId, dataC1w⟩, ⟨0, []⟩]

/-- Witness for C1: on a concrete well-formed payload whose only slot
matches, the amended characterization applies and the engine succeeds. -/
theorem C1_witness :
    verify_ed25519_instruction instrsC1w 1 pk0 msg0 sig0 = .ok () := by
  have h := C1_theorem instrsC1w 1 pk0 msg0 sig0 ⟨ed25519ProgramId, dataC1w⟩
    (by decide) rfl rfl (by decide) (by decide) (by decide) (by decide)
    (by
      intro j hj
      have h1 : (SolInstruction.mk ed25519ProgramId dataC1w).data.getD 0 0 = 1 := rfl
      rw [h1] at hj
      have hj0 : j = 0 := by omega
      subst hj0
      exact ⟨true, rfl⟩)
  exact h.1.mpr ⟨0, by decide, rfl⟩

/-! ### C8 -/

lemma slice_length (data : Bytes) (s n : Nat) (h : s + n ≤ data.length) :
    (slice data s (s + n)).length = n := by
  simp [slice, List.length_take, List.length_drop]
  omega

/-- C8.  The per-slot range checks of the cross-check engine: every
range end is computed with overflow-checked addition and checked against
the payload length, failing with the corresponding offset-overflow error
code rather than wrapping or reading out of range; a declared message
size other than 32 fails with InvalidMessageSize; and whenever a slot
reaches the comparison stage all three slices are in bounds with lengths
64, 32 and 32, and the offsets block itself lies inside the payload
whenever the header length check admitted the slot. -/
theorem C8_theorem :
    (∀ data pk msg sig : Bytes, ∀ i : Nat, ∀ b : Bool,
      slotCheck data pk msg sig i = .ok b →
      ∃ o, Ed25519SignatureOffsets.from_bytes (offSlice data i) = .ok o ∧
        o.signature_offset + 64 ≤ data.length ∧
        o.public_key_offset + 32 ≤ data.length ∧
        o.message_data_size = 32 ∧
        o.message_data_offset + 32 ≤ data.length ∧
        (slice data o.signature_offset (o.signature_offset + 64)).length = 64 ∧
        (slice data o.public_key_offset (o.public_key_offset + 32)).length = 32 ∧
        (slice data o.message_data_offset (o.message_data_offset + 32)).length = 32) ∧
    (∀ data pk msg sig : Bytes, ∀ i : Nat, ∀ o : Ed25519SignatureOffsets,
      Ed25519SignatureOffsets.from_bytes (offSlice data i) = .ok o →
      data.length < o.signature_offset + 64 →
      slotCheck data pk msg sig i = .error (.code .SignatureOffsetOverflow)) ∧
    (∀ data pk msg sig : Bytes, ∀ i : Nat, ∀ o : Ed25519SignatureOffsets,
      Ed25519SignatureOffsets.from_bytes (offSlice data i) = .ok o →
      data.length < 2 ^ 64 →
      o.signature_offset + 64 ≤ data.length →
      data.length < o.public_key_offset + 32 →
      slotCheck data pk msg sig i = .error (.code .PubkeyOffsetOverflow)) ∧
    (∀ data pk msg sig : Bytes, ∀ i : Nat, ∀ o : Ed25519SignatureOffsets,
      Ed25519SignatureOffsets.from_bytes (offSlice data i) = .ok o →
      data.length < 2 ^ 64 →
      o.signature_offset + 64 ≤ data.length →
      o.public_key_offset + 32 ≤ data.length →
      o.message_data_size ≠ 32 →
      slotCheck data pk msg sig i = .error (.code .InvalidMessageSize)) ∧
    (∀ data pk msg sig : Bytes, ∀ i : Nat, ∀ o : Ed25519SignatureOffsets,
      Ed25519SignatureOffsets.from_bytes (offSlice data i) = .ok o →
      data.length < 2 ^ 64 →
      o.signature_offset + 64 ≤ data.length →
      o.public_key_offset + 32 ≤ data.length →
      o.message_data_size = 32 →
      data.length < o.message_data_offset + 32 →
      slotCheck data pk msg sig i = .error (.code .MessageOffsetOverflow)) ∧
    (∀ data : Bytes, ∀ i num : Nat,
      2 + 14 * num ≤ data.length → i < num → (offSlice data i).length = 14) := by
  refine ⟨?_, ?_, ?_, ?_, ?_, ?_⟩
  · intro data pk msg sig i b h
    unfold slotCheck at h
    split at h
    · exact absurd h (by simp)
    · rename_i o hfb
      split at h
      · exact absurd h (by simp)
      · rename_i sig_end hsig
        obtain ⟨hsiglt, rfl⟩ := checked_add_eq_some.mp hsig
        split at h
        · rename_i hsle
          split at h
          · exact absurd h (by simp)
          · rename_i pubkey_end hpk
            obtain ⟨hpklt, rfl⟩ := checked_add_eq_some.mp hpk
            split at h
            · rename_i hple
              split at h
              · rename_i hms
                split at h
                · exact absurd h (by simp)
                · rename_i msg_end hme
                  obtain ⟨hmelt, rfl⟩ := checked_add_eq_some.mp hme
                  split at h
                  · rename_i hmle
                    rw [hms] at hmle
                    simp only [ED25519_SIG_LEN, ED25519_PUBKEY_LEN] at hsle hple
                    refine ⟨o, hfb, hsle, hple, hms, hmle, ?_, ?_, ?_⟩
                    · exact slice_length data o.signature_offset 64 hsle
                    · exact slice_length data o.public_key_offset 32 hple
                    · exact slice_length data o.message_data_offset 32 hmle
                  · exact absurd h (by simp)
              · exact absurd h (by simp)
            · exact absurd h (by simp)
        · exact absurd h (by simp)
  · intro data pk msg sig i o hfb hover
    unfold slotCheck
    rw [hfb]
    simp only [ED25519_SIG_LEN]
    split
    · rfl
    · rename_i sig_end hca
      obtain ⟨-, rfl⟩ := checked_add_eq_some.mp hca
      rw [if_neg (by omega)]
  · intro data pk msg sig i o hfb hdl hsle hover
    unfold slotCheck
    rw [hfb]
    simp only [ED25519_SIG_LEN, ED25519_PUBKEY_LEN]
    split
    · rename_i hca
      exact absurd (checked_add_eq_none.mp hca) (by omega)
    · rename_i sig_end hca
      obtain ⟨-, rfl⟩ := checked_add_eq_some.mp hca
      rw [if_pos hsle]
      split
      · rfl
      · rename_i pubkey_end hcb
        obtain ⟨-, rfl⟩ := checked_add_eq_some.mp hcb
        rw [if_neg (by omega)]
  · intro data pk msg sig i o hfb hdl hsle hple hms
    unfold slotCheck
    rw [hfb]
    simp only [ED25519_SIG_LEN, ED25519_PUBKEY_LEN]
    split
    · rename_i hca
      exact absurd (checked_add_eq_none.mp hca) (by omega)
    · rename_i sig_end hca
      obtain ⟨-, rfl⟩ := checked_add_eq_some.mp hca
      rw [if_pos hsle]
      split
      · rename_i hcb
        exact absurd (checked_add_eq_none.mp hcb) (by omega)
      · rename_i pubkey_end hcb
        obtain ⟨-, rfl⟩ := checked_add_eq_some.mp hcb
        rw [if_pos hple, if_neg hms]
  · intro data pk msg sig i o hfb hdl hsle hple hms hover
    unfold slotCheck
    rw [hfb]
    simp only [ED25519_SIG_LEN, ED25519_PUBKEY_LEN]
    split
    · rename_i hca
      exact absurd (checked_add_eq_none.mp hca) (by omega)
    · rename_i sig_end hca
      obtain ⟨-, rfl⟩ := checked_add_eq_some.mp hca
      rw [if_pos hsle]
      split
      · rename_i hcb
        exact absurd (checked_add_eq_none.mp hcb) (by omega)
      · rename_i pubkey_end hcb
        obtain ⟨-, rfl⟩ := checked_add_eq_some.mp hcb
        rw [if_pos hple, if_pos hms, hms]
        split
        · rfl
        · rename_i msg_end hcc
          obtain ⟨-, rfl⟩ := checked_add_eq_some.mp hcc
          rw [if_neg (by omega)]
  · intro data i num hnum hi
    unfold offSlice
    simp only [ED25519_INSTRUCTION_LEN, SIGNATURE_OFFSETS_LEN]
    exact slice_length data (2 + 14 * i) 14 (by omega)

/-- Witness for C8: on the concrete two-slot payload, slot 0 declares
message size 0, and the engine rejects it with InvalidMessageSize
exactly as the range-check conjunct of the theorem predicts. -/
theorem C8_witness :
    slotCheck dataC1 pk0 msg0 sig0 0 = .error (.code .InvalidMessageSize) := by
  exact C8_theorem.2.2.2.1 dataC1 pk0 msg0 sig0 0
    { signature_offset := 0, signature_instruction_index := 0,
      public_key_offset := 0, public_key_instruction_index := 0,
      message_data_offset := 0, message_data_size := 0,
      message_instruction_index := 0 }
    rfl (by decide) (by decide) (by decide) (by decide)

/-! ### C4 -/

/-- C4, amended.  The purge in `mark_used` with decision timestamp `t`
removes exactly the ledger entries whose `producedAt` is 3600 or more
time-units older than `t` (the source keeps an entry iff
`t - producedAt < 3600`, so an entry exactly 3600 old is purged as
well); in particular a record inserted at time `T` is still present
after a consume at `T + 3599` and absent after a consume at `T + 3601`. -/
theorem C4_theorem (led : UsedDecisions) (h2 : Bytes) (t : Int)
    (d : DecisionRecord) (hmem : d ∈ led.decisions) :
    (t - d.timestamp < 3600 → d ∈ ((led.mark_used h2 t).2).decisions) ∧
    (3600 ≤ t - d.timestamp → d ∉ ((led.mark_used h2 t).2).decisions) ∧
    (d ∈ ((led.mark_used h2 (d.timestamp + 3599)).2).decisions) ∧
    (d ∉ ((led.mark_used h2 (d.timestamp + 3601)).2).decisions) := by
  have hkeep : ∀ t' : Int, t' - d.timestamp < 3600 →
      d ∈ ((led.mark_used h2 t').2).decisions := by
    intro t' hlt
    have hf : d ∈ led.decisions.filter (fun r => decide (t' - r.timestamp < 3600)) :=
      List.mem_filter.mpr ⟨hmem, by simpa using hlt⟩
    simp only [UsedDecisions.mark_used]
    split
    · exact List.mem_append.mpr (Or.inl hf)
    · exact hf
  have hdrop : ∀ t' : Int, 3600 ≤ t' - d.timestamp →
      d ∉ ((led.mark_used h2 t').2).decisions := by
    intro t' hge hin
    have hnf : d ∉ led.decisions.filter (fun r => decide (t' - r.timestamp < 3600)) := by
      intro hf
      have := (List.mem_filter.mp hf).2
      simp at this
      omega
    have hne : d ≠ ⟨h2, t'⟩ := by
      intro hd
      have : d.timestamp = t' := by rw [hd]
      omega
    simp only [UsedDecisions.mark_used] at hin
    split at hin
    · simp only [List.mem_append] at hin
      rcases hin with hl | hr
      · exact hnf hl
      · simp only [List.mem_singleton] at hr
        exact hne hr
    · exact hnf hin
  exact ⟨hkeep t, hdrop t, hkeep (d.timestamp + 3599) (by omega),
    hdrop (d.timestamp + 3601) (by omega)⟩

/-- The claim says the purge removes only entries more than 3600
time-units old.  This concrete run refutes it: a record produced at time
0 is not more than 3600 old at a consume at time 3600, yet the consume
purges it: the post-call ledger holds only the newly pushed record. -/
theorem C4_counterexample :
    ¬ ((3600 : Int) - 0 > 3600) ∧
    (UsedDecisions.mark_used
        { bump := 0, decisions := [⟨List.replicate 32 1, 0⟩], max_size := 1000 }
        (List.replicate 32 2) 3600).2.decisions
      = [⟨List.replicate 32 2, 3600⟩] := by
  exact ⟨by omega, rfl⟩

/-- Witness for C4: for a concrete one-entry ledger the freshness-window
boundary facts hold: the entry survives a consume 3599 later and is gone
after a consume 3601 later. -/
theorem C4_witness :
    (⟨List.replicate 32 1, 0⟩ : DecisionRecord) ∈
      ((UsedDecisions.mark_used
        { bump := 0, decisions := [⟨List.replicate 32 1, 0⟩], max_size := 1000 }
        (List.replicate 32 2) 3599).2).decisions ∧
    (⟨List.replicate 32 1, 0⟩ : DecisionRecord) ∉
      ((UsedDecisions.mark_used
        { bump := 0, decisions := [⟨List.replicate 32 1, 0⟩], max_size := 1000 }
        (List.replicate 32 2) 3601).2).decisions := by
  have h := C4_theorem
    { bump := 0, decisions := [⟨List.replicate 32 1, 0⟩], max_size := 1000 }
    (List.replicate 32 2) 0 ⟨List.replicate 32 1, 0⟩ (by simp)
  exact ⟨by simpa using h.2.2.1, by simpa using h.2.2.2⟩

/-! ### C3 -/

/-- Sequential consumption of a list of digests at a common decision
timestamp, propagating the first failure (each step is one successful
`publishRiskDecision`'s ledger consume). -/
def consumeRun (hs : List Bytes) (t : Int) (led : UsedDecisions) :
    Except PErr UsedDecisions :=
  match hs with
  | [] => .ok led
  | h :: rest =>
    match led.mark_used h t with
    | (.ok _, led2) => consumeRun rest t led2
    | (.error e, _) => .error e

lemma consumeRun_fresh (hs : List Bytes) (led : UsedDecisions) (t : Int)
    (hts : ∀ d ∈ led.decisions, d.timestamp = t)
    (hcap : led.decisions.length + hs.length ≤ led.max_size)
    (hmax : led.max_size ≤ 65535) :
    consumeRun hs t led =
      .ok { led with decisions :=
            led.decisions ++ hs.map (fun h => (⟨h, t⟩ : DecisionRecord)) } := by
  induction hs generalizing led with
  | nil => simp [consumeRun]
  | cons h rest ih =>
    have hfilter : led.decisions.filter (fun d => decide (t - d.timestamp < 3600))
        = led.decisions := by
      apply List.filter_eq_self.mpr
      intro d hd
      simp [hts d hd]
    have hmark : led.mark_used h t =
        (.ok (), { led with decisions := led.decisions ++ [⟨h, t⟩] }) := by
      simp only [UsedDecisions.mark_used, hfilter]
      rw [if_pos (by simp at hcap; omega)]
    have hts2 : ∀ d ∈ led.decisions ++ [(⟨h, t⟩ : DecisionRecord)], d.timestamp = t := by
      intro d hd
      rcases List.mem_append.mp hd with hl | hr
      · exact hts d hl
      · simp only [List.mem_singleton] at hr
        rw [hr]
    have := ih { led with decisions := led.decisions ++ [⟨h, t⟩] }
      hts2 (by simp at hcap ⊢; omega) hmax
    simp only [consumeRun, hmark, this]
    simp

/-- The ledger state holding the records of `hs`, all produced at `t`,
on top of the freshly created ledger. -/
def fullLedger (hs : List Bytes) (t : Int) : UsedDecisions :=
  { usedDecsDefault with decisions := hs.map (fun h3 => (⟨h3, t⟩ : DecisionRecord)) }

/-- C3, amended.  After any successful insertion the ledger holds at
most `capacity` entries (so `|entries| ≤ capacity`, not strictly less:
the capacity check runs before the push); consuming `capacity = 1000`
distinct fresh digests into the freshly created ledger succeeds, filling
it to exactly 1000 entries, and only the next consume fails with
DecisionHistoryFull and appends nothing. -/
theorem C3_theorem :
    (∀ (led : UsedDecisions) (h3 : Bytes) (t : Int),
      led.decisions.length ≤ 65535 →
      (led.mark_used h3 t).1 = .ok () →
      ((led.mark_used h3 t).2).decisions.length ≤ led.max_size) ∧
    (∀ (hs : List Bytes) (t : Int),
      hs.length = 1000 →
      consumeRun hs t usedDecsDefault = .ok (fullLedger hs t) ∧
      (fullLedger hs t).decisions.length = 1000 ∧
      ∀ h4 : Bytes,
        ((fullLedger hs t).mark_used h4 t).1
          = .error (.code .DecisionHistoryFull) ∧
        ((fullLedger hs t).mark_used h4 t).2.decisions
          = (fullLedger hs t).decisions) := by
  constructor
  · intro led h3 t hsmall hok
    have hfl : (led.decisions.filter
        (fun d => decide (t - d.timestamp < 3600))).length ≤ led.decisions.length :=
      List.length_filter_le _ _
    simp only [UsedDecisions.mark_used] at hok ⊢
    split at hok
    · rename_i hlt
      rw [if_pos hlt]
      simp only [List.length_append, List.length_cons, List.length_nil]
      omega
    · exact absurd hok (by simp)
  · intro hs t hlen
    have hrun := consumeRun_fresh hs usedDecsDefault t
      (by intro d hd; simp [usedDecsDefault] at hd)
      (by simp [usedDecsDefault, hlen])
      (by simp [usedDecsDefault])
    have hlenmap : (fullLedger hs t).decisions.length = 1000 := by
      simp [fullLedger, usedDecsDefault, hlen]
    have hfilter : (fullLedger hs t).decisions.filter
        (fun d => decide (t - d.timestamp < 3600))
        = (fullLedger hs t).decisions := by
      apply List.filter_eq_self.mpr
      intro d hd
      simp only [fullLedger, usedDecsDefault] at hd
      rcases List.mem_map.mp hd with ⟨x, -, hx⟩
      rw [← hx]
      simp
    have hfull : ∀ h4 : Bytes,
        ((fullLedger hs t).mark_used h4 t).1
          = .error (.code .DecisionHistoryFull) ∧
        ((fullLedger hs t).mark_used h4 t).2.decisions
          = (fullLedger hs t).decisions := by
      intro h4
      have hmax : (fullLedger hs t).max_size = 1000 := by
        simp [fullLedger, usedDecsDefault]
      simp only [UsedDecisions.mark_used, hfilter, hlenmap, hmax]
      norm_num
    refine ⟨?_, hlenmap, hfull⟩
    rw [hrun]
    simp [fullLedger, usedDecsDefault]

/-- The `i`-th distinct 32-byte digest used for the capacity run. -/
def digestOf (i : Nat) : Bytes := i % 256 :: (i / 256) % 256 :: List.replicate 30 0

/-- 1000 pairwise distinct fresh digests. -/
def digList : List Bytes := (List.range 1000).map digestOf

/-- C3 counterexample.  The claim predicts that after consuming
capacity - 1 = 999 distinct fresh digests the next consume fails and
that the entry count stays strictly below capacity; instead, a run of
1000 distinct fresh consumes from the freshly created ledger succeeds
end to end and leaves exactly 1000 = capacity entries. -/
theorem C3_counterexample :
    digList.Nodup ∧
    digList.length = 1000 ∧
    (consumeRun digList 0 usedDecsDefault).map (fun l => l.decisions.length)
      = .ok 1000 := by
  refine ⟨?_, by simp [digList], ?_⟩
  · apply List.Nodup.map_on ?_ (List.nodup_range 1000)
    intro i hi j hj heq
    simp only [digestOf, List.cons.injEq] at heq
    simp only [List.mem_range] at hi hj
    omega
  · rw [consumeRun_fresh digList usedDecsDefault 0
      (by intro d hd; simp [usedDecsDefault] at hd)
      (by simp [usedDecsDefault, digList])
      (by simp [usedDecsDefault])]
    simp [Except.map, usedDecsDefault, digList]

/-- Witness for C3: the concrete 1000-digest run fills the fresh ledger
and the next consume fails with DecisionHistoryFull. -/
theorem C3_witness :
    consumeRun digList 0 usedDecsDefault = .ok (fullLedger digList 0) ∧
    (fullLedger digList 0).decisions.length = 1000 ∧
    ((fullLedger digList 0).mark_used pk0 0).1
      = .error (.code .DecisionHistoryFull) := by
  have h := C3_theorem.2 digList 0 (by simp [digList])
  exact ⟨h.1, h.2.1, (h.2.2 pk0).1⟩

/-! ### Error-code lemmas shared by the publish-protocol claims -/

lemma from_bytes_error {bytes : Bytes} {e : PErr}
    (h : Ed25519SignatureOffsets.from_bytes bytes = .error e) :
    e = .code .InvalidEd25519Data := by
  unfold Ed25519SignatureOffsets.from_bytes at h
  split at h
  · simp only [Except.error.injEq] at h
    exact h.symm
  · exact absurd h (by simp)

lemma slotCheck_not_replay_code {data pk msg sig : Bytes} {i : Nat} {e : PErr}
    (h : slotCheck data pk msg sig i = .error e) :
    e ≠ .code .DecisionAlreadyUsed ∧ e ≠ .code .DecisionHistoryFull := by
  unfold slotCheck at h
  split at h
  · rename_i e0 hfb
    rw [from_bytes_error hfb] at h
    simp only [Except.error.injEq] at h
    subst h
    exact ⟨by decide, by decide⟩
  · repeat' split at h
    all_goals simp only [Except.error.injEq, reduceCtorEq] at h
    all_goals subst h
    all_goals exact ⟨by decide, by decide⟩

lemma checkSlots_not_replay_code {data pk msg sig : Bytes} :
    ∀ (k i : Nat) (e : PErr), checkSlots data pk msg sig i k = .error e →
    e ≠ .code .DecisionAlreadyUsed ∧ e ≠ .code .DecisionHistoryFull := by
  intro k
  induction k with
  | zero =>
    intro i e h
    simp only [checkSlots, Except.error.injEq] at h
    subst h
    exact ⟨by decide, by decide⟩
  | succ k ih =>
    intro i e h
    cases hsc : slotCheck data pk msg sig i with
    | error e0 =>
      have hstep : checkSlots data pk msg sig i (k + 1) = .error e0 := by
        simp only [checkSlots, hsc]
        rfl
      rw [hstep] at h
      simp only [Except.error.injEq] at h
      subst h
      exact slotCheck_not_replay_code hsc
    | ok b =>
      have hstep : checkSlots data pk msg sig i (k + 1) =
          if b then .ok () else checkSlots data pk msg sig (i + 1) k := by
        simp only [checkSlots, hsc]
        rfl
      rw [hstep] at h
      by_cases hb : b = true
      · subst hb
        rw [if_pos rfl] at h
        exact absurd h (by simp)
      · rw [Bool.not_eq_true] at hb
        subst hb
        rw [if_neg (by simp)] at h
        exact ih (i + 1) e h

lemma processEdData_not_replay_code {data pk msg sig : Bytes} {e : PErr}
    (h : processEdData data pk msg sig = .error e) :
    e ≠ .code .DecisionAlreadyUsed ∧ e ≠ .code .DecisionHistoryFull := by
  simp only [processEdData] at h
  repeat' split at h
  all_goals first
    | exact checkSlots_not_replay_code _ _ e h
    | (simp only [Except.error.injEq] at h
       subst h
       exact ⟨by decide, by decide⟩)

lemma verify_not_replay_code {instrs : List SolInstruction} {current_index : Nat}
    {pk msg sig : Bytes} {e : PErr}
    (h : verify_ed25519_instruction instrs current_index pk msg sig = .error e) :
    e ≠ .code .DecisionAlreadyUsed ∧ e ≠ .code .DecisionHistoryFull := by
  unfold verify_ed25519_instruction at h
  split at h
  · simp only [Except.error.injEq] at h
    subst h
    exact ⟨by decide, by decide⟩
  · split at h
    · simp only [Except.error.injEq] at h
      subst h
      exact ⟨by decide, by decide⟩
    · split at h
      · simp only [Except.error.injEq] at h
        subst h
        exact ⟨by decide, by decide⟩
      · exact processEdData_not_replay_code h

lemma mark_used_fail_code {led : UsedDecisions} {h3 : Bytes} {t : Int} {e : PErr}
    (h : (led.mark_used h3 t).1 = .error e) :
    e = .code .DecisionHistoryFull := by
  simp only [UsedDecisions.mark_used] at h
  split at h
  · exact absurd h (by simp)
  · simp only [Except.error.injEq] at h
    exact h.symm

lemma mark_used_ok_state {led : UsedDecisions} {h3 : Bytes} {t : Int} {ud : UsedDecisions}
    (h : led.mark_used h3 t = (.ok (), ud)) :
    ud = { led with decisions :=
      led.decisions.filter (fun d => decide (t - d.timestamp < 3600)) ++ [⟨h3, t⟩] } := by
  simp only [UsedDecisions.mark_used] at h
  split at h
  · simp only [Prod.mk.injEq] at h
    exact h.2.symm
  · exact absurd h (by simp)

lemma update_eq_error_iff (env : TxEnv) (args : RiskArgs) (s : ProgState) (e : PErr) :
    update_risk_status env args s = .error e ↔
      (update_risk_status_raw env args s).1 = .error e := by
  unfold update_risk_status
  rcases hr : update_risk_status_raw env args s with ⟨r, s2⟩
  cases r with
  | ok u =>
    cases u
    simp
  | error e0 =>
    simp

lemma raw_checks_pass (env : TxEnv) (args : RiskArgs) (s : ProgState)
    (hinit : s.config.is_initialized = true)
    (hauth : s.config.authority = env.caller)
    (hlen1 : args.asset_id.length ≤ 16)
    (hlen0 : args.asset_id.length ≠ 0)
    (hrs : args.risk_score ≤ 100)
    (hcr : args.confidence_ratio ≤ 10000)
    (hts1 : env.now - 300 ≤ args.timestamp)
    (hts2 : args.timestamp ≤ env.now + 60)
    (hsigner : args.signer_pubkey = s.config.trusted_signer) :
    update_risk_status_raw env args s = publishCore env args s := by
  unfold update_risk_status_raw
  rw [if_neg (by simp [hinit]), if_neg (by simp [hauth]), if_neg (by omega),
    if_neg hlen0, if_neg (by omega), if_neg (by omega),
    if_neg (by push_neg; exact ⟨hts1, hts2⟩),
    if_neg (by simp [hsigner])]

lemma publishCore_not_used_no_replay_error (env : TxEnv) (args : RiskArgs) (s : ProgState)
    (hnu : s.used_decisions.is_used args.decision_hash = false) :
    (publishCore env args s).1 ≠ .error (.code .DecisionAlreadyUsed) := by
  unfold publishCore
  rw [if_neg (by simp [hnu])]
  cases hv : verify_ed25519_instruction env.instrs env.current_index
      args.signer_pubkey args.decision_hash args.signature with
  | error e =>
    intro hcontra
    simp only [Except.error.injEq] at hcontra
    exact (verify_not_replay_code hv).1 hcontra
  | ok u =>
    cases u
    rcases hm : s.used_decisions.mark_used args.decision_hash args.timestamp with ⟨r, ud⟩
    cases r with
    | error e0 =>
      intro hcontra
      simp only [Except.error.injEq] at hcontra
      subst hcontra
      have : (s.used_decisions.mark_used args.decision_hash args.timestamp).1
          = .error (.code .DecisionAlreadyUsed) := by rw [hm]
      have hfc := mark_used_fail_code this
      exact absurd hfc (by decide)
    | ok u2 =>
      cases u2
      simp

lemma update_ok_raw (env : TxEnv) (args : RiskArgs) (s s2 : ProgState)
    (h : update_risk_status env args s = .ok s2) :
    update_risk_status_raw env args s = (.ok (), s2) := by
  unfold update_risk_status at h
  rcases hr : update_risk_status_raw env args s with ⟨r, st⟩
  rw [hr] at h
  cases r with
  | error e0 => exact absurd h (by simp)
  | ok u =>
    cases u
    simp only [Except.ok.injEq] at h
    rw [h]

lemma update_ok_facts (env : TxEnv) (args : RiskArgs) (s s2 : ProgState)
    (h : update_risk_status env args s = .ok s2) :
    s2.config = s.config ∧ s.config.is_initialized = true ∧
    s2.used_decisions.decisions =
      s.used_decisions.decisions.filter
        (fun d => decide (args.timestamp - d.timestamp < 3600))
        ++ [⟨args.decision_hash, args.timestamp⟩] ∧
    (∀ a, a ≠ args.asset_id → s2.registry a = s.registry a) := by
  have hr := update_ok_raw env args s s2 h
  unfold update_risk_status_raw at hr
  split at hr
  · exact absurd hr (by simp)
  · split at hr
    · exact absurd hr (by simp)
    · split at hr
      · exact absurd hr (by simp)
      · split at hr
        · exact absurd hr (by simp)
        · split at hr
          · exact absurd hr (by simp)
          · split at hr
            · exact absurd hr (by simp)
            · split at hr
              · exact absurd hr (by simp)
              · split at hr
                · exact absurd hr (by simp)
                · rename_i hninit hnauth h1 h2 h3 h4 h5 h6
                  unfold publishCore at hr
                  split at hr
                  · exact absurd hr (by simp)
                  · split at hr
                    · exact absurd hr (by simp)
                    · split at hr
                      · exact absurd hr (by simp)
                      · rename_i ud hmark
                        simp only [Prod.mk.injEq] at hr
                        have hud := mark_used_ok_state hmark
                        rw [← hr.2]
                        refine ⟨rfl, by simpa using hninit, by simp [hud], ?_⟩
                        intro a ha
                        simp [ha]

/-! ### C5 -/

/-- C5, amended.  `is_used` reports a digest as used exactly when some
entry with that digest exists anywhere in the ledger, with no reference
to any time window (a stale entry still counts until a later successful
consume lazily purges it); and, once the input, timestamp-window, and
signer validations pass, publish fails with DecisionAlreadyUsed exactly
when `is_used` reports the digest as used. -/
theorem C5_theorem :
    (∀ (led : UsedDecisions) (h3 : Bytes),
      led.is_used h3 = true ↔ ∃ d ∈ led.decisions, d.hash = h3) ∧
    (∀ (env : TxEnv) (args : RiskArgs) (s : ProgState),
      s.config.is_initialized = true →
      s.config.authority = env.caller →
      args.asset_id.length ≤ 16 →
      args.asset_id.length ≠ 0 →
      args.risk_score ≤ 100 →
      args.confidence_ratio ≤ 10000 →
      env.now - 300 ≤ args.timestamp →
      args.timestamp ≤ env.now + 60 →
      args.signer_pubkey = s.config.trusted_signer →
      (update_risk_status env args s = .error (.code .DecisionAlreadyUsed) ↔
        s.used_decisions.is_used args.decision_hash = true)) := by
  constructor
  · intro led h3
    simp [UsedDecisions.is_used, List.any_eq_true]
  · intro env args s hinit hauth hlen1 hlen0 hrs hcr hts1 hts2 hsigner
    rw [update_eq_error_iff,
      raw_checks_pass env args s hinit hauth hlen1 hlen0 hrs hcr hts1 hts2 hsigner]
    by_cases hu : s.used_decisions.is_used args.decision_hash = true
    · rw [hu]
      simp only [iff_true]
      unfold publishCore
      rw [if_pos hu]
    · have hfalse : s.used_decisions.is_used args.decision_hash = false := by
        simpa using hu
      constructor
      · intro h
        exact absurd h (publishCore_not_used_no_replay_error env args s hfalse)
      · intro h
        rw [hfalse] at h
        cases h

/-- The digest whose ledger entry is stale in the scenario below. -/
def hashC5 : Bytes := List.replicate 32 7

/-- A program state whose ledger holds one entry for `hashC5` produced
at time 0 (far older than the one-hour window at the time of the
attempt below). -/
def sC5 : ProgState :=
  { config := { bump := 0, authority := pk0, is_initialized := true,
                trusted_signer := pk0, nonce := 0 }
    used_decisions := { bump := 0, decisions := [⟨hashC5, 0⟩], max_size := 1000 }
    registry := fun _ => none }

/-- The environment of the replay attempt: the clock reads 100000, so
the ledger entry of `hashC5` is 100000 > 3600 time-units old. -/
def envC5 : TxEnv :=
  { now := 100000, instrs := [], current_index := 0, caller := pk0, risk_bump := 0 }

/-- A publish attempt reusing `hashC5` with an in-window timestamp. -/
def argsC5 : RiskArgs :=
  { asset_id := [65], risk_score := 10, is_blocked := false,
    confidence_ratio := 0, publisher_count := 1, timestamp := 100000,
    decision_hash := hashC5, signature := sig0, signer_pubkey := pk0 }

/-- C5 counterexample.  The claim says a digest whose ledger entry is
older than the retention window is treated as fresh, so this publish
attempt must not fail with DecisionAlreadyUsed; but `is_used` ignores
entry age, and the attempt does fail with DecisionAlreadyUsed even
though the entry is 100000 ≥ 3600 time-units old. -/
theorem C5_counterexample :
    (100000 : Int) - 0 ≥ 3600 ∧
    update_risk_status envC5 argsC5 sC5 = .error (.code .DecisionAlreadyUsed) := by
  exact ⟨by decide, rfl⟩

/-- Witness for C5: the amended characterization applied to the concrete
stale-entry state: `is_used` is true there, and the publish attempt
fails with DecisionAlreadyUsed accordingly. -/
theorem C5_witness :
    UsedDecisions.is_used sC5.used_decisions hashC5 = true ∧
    update_risk_status envC5 argsC5 sC5 = .error (.code .DecisionAlreadyUsed) := by
  have h := C5_theorem.2 envC5 argsC5 sC5 rfl rfl (by decide) (by decide)
    (by decide) (by decide) (by decide) (by decide) rfl
  exact ⟨rfl, h.mpr rfl⟩

/-! ### C2 -/

/-- C2.  Once a publish with digest D has succeeded (so D's record sits
in the Replay Ledger), any second publish attempt with the same digest
against the resulting state, passing the input, timestamp-window and
signer validations of steps 1-3, fails with DecisionAlreadyUsed. -/
theorem C2_theorem (env1 : TxEnv) (args1 : RiskArgs) (s s2 : ProgState)
    (h1 : update_risk_status env1 args1 s = .ok s2)
    (env2 : TxEnv) (args2 : RiskArgs)
    (hd : args2.decision_hash = args1.decision_hash)
    (hauth : s2.config.authority = env2.caller)
    (hlen1 : args2.asset_id.length ≤ 16)
    (hlen0 : args2.asset_id.length ≠ 0)
    (hrs : args2.risk_score ≤ 100)
    (hcr : args2.confidence_ratio ≤ 10000)
    (hts1 : env2.now - 300 ≤ args2.timestamp)
    (hts2 : args2.timestamp ≤ env2.now + 60)
    (hsigner : args2.signer_pubkey = s2.config.trusted_signer) :
    update_risk_status env2 args2 s2 = .error (.code .DecisionAlreadyUsed) := by
  obtain ⟨hcfg, hinit, hdec, -⟩ := update_ok_facts env1 args1 s s2 h1
  have hinit2 : s2.config.is_initialized = true := by
    rw [hcfg]
    exact hinit
  have hu : s2.used_decisions.is_used args2.decision_hash = true := by
    unfold UsedDecisions.is_used
    rw [hdec, hd]
    simp
  rw [update_eq_error_iff,
    raw_checks_pass env2 args2 s2 hinit2 hauth hlen1 hlen0 hrs hcr hts1 hts2 hsigner]
  unfold publishCore
  rw [if_pos hu]

/-- The initial program state of the concrete publish-twice scenario:
initialized config trusting the all-zero signer, empty ledger, empty
registry. -/
def s0W : ProgState :=
  { config := { bump := 0, authority := pk0, is_initialized := true,
                trusted_signer := pk0, nonce := 0 }
    used_decisions := usedDecsDefault
    registry := fun _ => none }

/-- The transaction environment of the scenario: the matching one-slot
ed25519 verification instruction precedes the publish. -/
def envW : TxEnv :=
  { now := 1000, instrs := instrsC1w, current_index := 1, caller := pk0, risk_bump := 5 }

/-- A valid publish request for digest `msg0`. -/
def argsW : RiskArgs :=
  { asset_id := [66, 84, 67], risk_score := 80, is_blocked := true,
    confidence_ratio := 9000, publisher_count := 5, timestamp := 1000,
    decision_hash := msg0, signature := sig0, signer_pubkey := pk0 }

/-- The state after the first successful publish of the scenario. -/
def s1W : ProgState :=
  match update_risk_status envW argsW s0W with
  | .ok s => s
  | .error _ => s0W

/-- Witness for C2: in the concrete scenario the first publish succeeds
and the identical second call on the resulting state fails with
DecisionAlreadyUsed. -/
theorem C2_witness :
    update_risk_status envW argsW s1W = .error (.code .DecisionAlreadyUsed) := by
  exact C2_theorem envW argsW s0W s1W rfl envW argsW rfl rfl (by decide)
    (by decide) (by decide) (by decide) (by decide) (by decide) rfl

/-! ### C9 -/

/-- C9.  publishRiskDecision is all-or-nothing: whenever any step fails,
the state visible after the attempt (the runtime rolls back all account
writes of a failed instruction) is exactly the pre-call state: the
Replay Ledger and every AssetRiskRecord keep their prior values. -/
theorem C9_theorem (env : TxEnv) (args : RiskArgs) (s : ProgState) (e : PErr)
    (h : (update_risk_status_raw env args s).1 = .error e) :
    committedState env args s = s ∧
    (committedState env args s).used_decisions = s.used_decisions ∧
    ∀ a, (committedState env args s).registry a = s.registry a := by
  rcases hr : update_risk_status_raw env args s with ⟨r, st⟩
  rw [hr] at h
  cases r with
  | ok u =>
    cases u
    exact absurd h (by simp)
  | error e0 =>
    have hc : committedState env args s = s := by
      unfold committedState
      rw [hr]
    exact ⟨hc, by rw [hc], by intro a; rw [hc]⟩

/-- A publish request with an empty asset id (fails step 1 validation). -/
def argsBadW : RiskArgs :=
  { asset_id := [], risk_score := 80, is_blocked := true,
    confidence_ratio := 9000, publisher_count := 5, timestamp := 1000,
    decision_hash := msg0, signature := sig0, signer_pubkey := pk0 }

/-- Witness for C9: a concrete failing attempt (empty asset id) leaves
the visible state exactly the pre-call state. -/
theorem C9_witness :
    committedState envW argsBadW s0W = s0W ∧
    (committedState envW argsBadW s0W).used_decisions = s0W.used_decisions := by
  have h := C9_theorem envW argsBadW s0W (.code .AssetIdEmpty) rfl
  exact ⟨h.1, h.2.1⟩

/-! ### C10 -/

/-- C10.  update_risk_status never modifies the trust configuration: in
the visible post-attempt state (successful or failed) every Config field
equals its prior value, and every AssetRiskStatus record of an asset
other than the given asset id is unchanged. -/
theorem C10_theorem (env : TxEnv) (args : RiskArgs) (s : ProgState) :
    (committedState env args s).config = s.config ∧
    (committedState env args s).config.authority = s.config.authority ∧
    (committedState env args s).config.trusted_signer = s.config.trusted_signer ∧
    (committedState env args s).config.is_initialized = s.config.is_initialized ∧
    (committedState env args s).config.nonce = s.config.nonce ∧
    ∀ a, a ≠ args.asset_id → (committedState env args s).registry a = s.registry a := by
  rcases hr : update_risk_status_raw env args s with ⟨r, st⟩
  cases r with
  | error e0 =>
    have hc : committedState env args s = s := by
      unfold committedState
      rw [hr]
    rw [hc]
    exact ⟨rfl, rfl, rfl, rfl, rfl, fun a _ => rfl⟩
  | ok u =>
    cases u
    have hup : update_risk_status env args s = .ok st := by
      unfold update_risk_status
      rw [hr]
    obtain ⟨hcfg, -, -, hreg⟩ := update_ok_facts env args s st hup
    have hc : committedState env args s = st := by
      unfold committedState
      rw [hr]
    rw [hc, hcfg]
    exact ⟨rfl, rfl, rfl, rfl, rfl, hreg⟩

/-- Witness for C10: in the concrete successful publish of asset
[66, 84, 67], the config and the record of the unrelated asset [1] are
untouched. -/
theorem C10_witness :
    (committedState envW argsW s0W).config = s0W.config ∧
    (committedState envW argsW s0W).registry [1] = s0W.registry [1] := by
  have h := C10_theorem envW argsW s0W
  exact ⟨h.1, h.2.2.2.2.2 [1] (by decide)⟩

/-! ### C6 -/

/-- The config produced by a successful rotation: the new trusted signer
and the nonce advanced by `checked_add(1).unwrap_or(0)`. -/
def rotatedConfig (config : Config) (new_signer : Bytes) : Config :=
  { config with
    trusted_signer := new_signer
    nonce := (checked_add_u64 config.nonce 1).getD 0 }

/-- C6, amended.  rotateSigner called by the administrative authority on
an initialized config always succeeds (the counter update never causes a
failure) and replaces trustedSigner; the rotation counter is advanced
with checked_add(1).unwrap_or(0), which increments it strictly for every
nonce below u64::MAX but wraps to 0 at u64::MAX instead of saturating,
so monotonicity holds only below u64::MAX. -/
theorem C6_theorem (config : Config) (caller new_signer : Bytes)
    (hinit : config.is_initialized = true)
    (hauth : config.authority = caller) :
    update_trusted_signer config caller new_signer = .ok (rotatedConfig config new_signer) ∧
    (config.nonce + 1 < 2 ^ 64 →
      (checked_add_u64 config.nonce 1).getD 0 = config.nonce + 1) ∧
    (config.nonce = 2 ^ 64 - 1 → (checked_add_u64 config.nonce 1).getD 0 = 0) := by
  refine ⟨?_, ?_, ?_⟩
  · unfold update_trusted_signer rotatedConfig
    rw [if_neg (by simp [hinit]), if_neg (by simp [hauth])]
  · intro hlt
    unfold checked_add_u64
    rw [if_pos hlt]
    rfl
  · intro hmax
    unfold checked_add_u64
    rw [if_neg (by omega)]
    rfl

/-- The config sitting at the maximal `u64` rotation counter. -/
def cfgMax : Config :=
  { bump := 0, authority := pk0, is_initialized := true,
    trusted_signer := pk0, nonce := 2 ^ 64 - 1 }

/-- C6 counterexample.  With the rotation counter at u64::MAX, a
rotation by the authority succeeds but resets the counter to 0, which is
strictly below the pre-state value: the update is wrapping-to-zero, not
saturating, and the post-state nonce is not ≥ the pre-state nonce. -/
theorem C6_counterexample :
    update_trusted_signer cfgMax pk0 (List.replicate 32 3) =
      .ok { bump := 0, authority := pk0, is_initialized := true,
            trusted_signer := List.replicate 32 3, nonce := 0 } ∧
    ¬ (cfgMax.nonce ≤ 0) := by
  constructor
  · rfl
  · show ¬ (2 ^ 64 - 1 ≤ 0)
    omega

/-- Witness for C6: rotating at a small nonce succeeds and increments
the counter from 5 to 6. -/
theorem C6_witness :
    update_trusted_signer
      { bump := 0, authority := pk0, is_initialized := true,
        trusted_signer := pk0, nonce := 5 } pk0 (List.replicate 32 3) =
      .ok { bump := 0, authority := pk0, is_initialized := true,
            trusted_signer := List.replicate 32 3, nonce := 6 } := by
  have h := C6_theorem
    { bump := 0, authority := pk0, is_initialized := true,
      trusted_signer := pk0, nonce := 5 } pk0 (List.replicate 32 3) rfl rfl
  rw [h.1]
  rfl

/-! ### C7 -/

/-- C7, amended.  verifyDecisionOnly (verify_decision) is a pure check
over the config and the instructions sysvar (its account context
declares no mutable account, so it touches neither the Replay Ledger nor
any AssetRiskRecord), but it does not perform publish steps 2-5 as
claimed: it succeeds exactly when the config is initialized, the claimed
signer equals the trusted signer, the locator plus cross-check succeeds,
and `timestamp ≥ now - 300`.  There is no upper bound `now + 60` (a
future-dated decision passes), a stale decision fails with
DecisionExpired rather than InvalidTimestamp, and no replay-freshness
check is performed. -/
theorem C7_theorem (config : Config) (instrs : List SolInstruction)
    (current_index : Nat) (now timestamp : Int)
    (decision_hash signature signer_pubkey : Bytes) :
    verify_decision config instrs current_index now timestamp
        decision_hash signature signer_pubkey = .ok () ↔
      (config.is_initialized = true ∧
       signer_pubkey = config.trusted_signer ∧
       verify_ed25519_instruction instrs current_index
         signer_pubkey decision_hash signature = .ok () ∧
       now - 300 ≤ timestamp) := by
  cases hv : verify_ed25519_instruction instrs current_index
      signer_pubkey decision_hash signature with
  | error e =>
    simp only [verify_decision, hv]
    constructor
    · intro h
      split at h
      · exact absurd h (by simp)
      · split at h
        · exact absurd h (by simp)
        · exact absurd h (by simp)
    · rintro ⟨-, -, hok, -⟩
      exact absurd hok (by simp)
  | ok u =>
    cases u
    simp only [verify_decision, hv]
    constructor
    · intro h
      split at h
      · exact absurd h (by simp)
      · split at h
        · exact absurd h (by simp)
        · rename_i hninit hnsig
          split at h
          · rename_i hts
            exact ⟨by simpa using hninit, by simpa using hnsig, trivial, hts⟩
          · exact absurd h (by simp)
    · rintro ⟨hinit, hsig, -, hts⟩
      rw [if_neg (by simp [hinit]), if_neg (by simp [hsig]), if_pos hts]

/-- The initialized config trusting the all-zero signer. -/
def cfgC7 : Config :=
  { bump := 0, authority := pk0, is_initialized := true,
    trusted_signer := pk0, nonce := 0 }

/-- C7 counterexample.  The claim says verifyDecisionOnly validates the
decision timestamp within [now - 300, now + 60] and fails
InvalidTimestamp otherwise; with now = 0 and timestamp = 100 > now + 60
the call nevertheless succeeds (the code checks only the lower bound,
and with a different error code). -/
theorem C7_counterexample :
    verify_decision cfgC7 instrsC1w 1 0 100 msg0 sig0 pk0 = .ok () ∧
    ¬ ((100 : Int) ≤ 0 + 60) := by
  exact ⟨rfl, by decide⟩

end Workspace
